import Mathlib

/-!
Shallow embedding of `streamlit_supabase_storage_browser/__init__.py`:
the bucket query/listing layer (`Bucket.list`, `Bucket.exists`,
`translate_storage_file`), the preview dispatcher (`PREVIEW_HANDLERS`,
`show_file_preview`) and the widget orchestrator's event-handling region
of `st_supabase_storage_browser` (source lines 342-362).

Modelling conventions:
* Python floats are modelled as rationals (all values arising here are exact);
* the storage provider is modelled as the list of `storage.objects` rows
  visible to the query; executing a query is pure filtering of that row set;
* fallible Python code (KeyError, ValueError, requests exceptions, handler
  exceptions) is modelled with Option/Except;
* the external collaborators (handler bodies, `requests.get`, `urljoin`,
  content sniffing) are supplied as an explicit environment record.
-/

namespace StorageBrowser

/-! ### Shell-style pattern matching (`fnmatch.fnmatch`, posix `normcase` = id)

`fnmatch.translate` compiles a pattern into a regex: `*` to `.*`, `?` to `.`,
`[...]` to a character class (with `[!...]` negation, a leading `]` literal,
and an unterminated `[` kept literal), every other character literally; the
regex is then matched against the whole name.  We compile to a token list and
match the token list against the whole character list. -/

inductive GlobTok where
  | star : GlobTok
  | anyc : GlobTok
  | lit : Char → GlobTok
  | cls : Bool → List (Char × Char) → GlobTok
deriving DecidableEq

/-- Scan for the closing `]` of a character class, returning the chars before
it and the remainder after it. -/
def splitAtRBracket : List Char → Option (List Char × List Char)
  | [] => none
  | ']' :: rest => some ([], rest)
  | c :: rest =>
    match splitAtRBracket rest with
    | some (a, b) => some (c :: a, b)
    | none => none

/-- Character-class body after `[`: optional `!` negation, a leading `]` is a
literal member, unterminated classes are rejected (the `[` stays literal). -/
def extractClass (p : List Char) : Option (Bool × List Char × List Char) :=
  let neg : Bool := match p with | '!' :: _ => true | _ => false
  let q : List Char := match p with | '!' :: q => q | _ => p
  match q with
  | ']' :: q' =>
    match splitAtRBracket q' with
    | some (inner, rest) => some (neg, ']' :: inner, rest)
    | none => none
  | _ =>
    match splitAtRBracket q with
    | some (inner, rest) => some (neg, inner, rest)
    | none => none

/-- Class members: `a-b` is a range, everything else a literal member
(a trailing `-` is literal, as in `fnmatch.translate`). -/
def classItems : List Char → List (Char × Char)
  | [] => []
  | a :: '-' :: b :: rest => (a, b) :: classItems rest
  | a :: rest => (a, a) :: classItems rest

def inClass (neg : Bool) (items : List (Char × Char)) (c : Char) : Bool :=
  let mem := items.any (fun r => decide (r.1 ≤ c) && decide (c ≤ r.2))
  if neg then !mem else mem

/-- Fuel-indexed pattern compiler (fuel = pattern length suffices; fuel keeps
the recursion structural so that the kernel can evaluate it). -/
def compileGlobAux : Nat → List Char → List GlobTok
  | 0, _ => []
  | _ + 1, [] => []
  | fuel + 1, c :: p =>
    if c = '*' then GlobTok.star :: compileGlobAux fuel p
    else if c = '?' then GlobTok.anyc :: compileGlobAux fuel p
    else if c = '[' then
      match extractClass p with
      | some (neg, cls, rest) => GlobTok.cls neg (classItems cls) :: compileGlobAux fuel rest
      | none => GlobTok.lit '[' :: compileGlobAux fuel p
    else GlobTok.lit c :: compileGlobAux fuel p

def compileGlob (p : List Char) : List GlobTok :=
  compileGlobAux p.length p

/-- All suffixes of a character list, longest first. -/
def suffixes : List Char → List (List Char)
  | [] => [[]]
  | c :: s => (c :: s) :: suffixes s

/-- Full match of a compiled pattern against a name.  `star` matches any
(possibly empty) sequence of characters, `/` included, exactly like the `.*`
that `fnmatch.translate` emits. -/
def tokMatch : List GlobTok → List Char → Bool
  | [], s => s.isEmpty
  | GlobTok.star :: t, s => (suffixes s).any (fun u => tokMatch t u)
  | GlobTok.anyc :: t, s =>
    match s with
    | [] => false
    | _ :: s' => tokMatch t s'
  | GlobTok.lit c :: t, s =>
    match s with
    | [] => false
    | c' :: s' => (c == c') && tokMatch t s'
  | GlobTok.cls neg items :: t, s =>
    match s with
    | [] => false
    | c' :: s' => inClass neg items c' && tokMatch t s'

/-- `fnmatch.fnmatch(name, pattern)` (posix: `normcase` is the identity). -/
def fnmatch (name pat : String) : Bool :=
  tokMatch (compileGlob pat.data) name.data

/-! ### SQL LIKE matching (`.like` / `.like_any_of` query filters)

`%` matches any sequence, `_` any single character, backslash escapes the
next character (the PostgreSQL default escape). -/

def compileLike : List Char → List GlobTok
  | [] => []
  | '\\' :: c :: p => GlobTok.lit c :: compileLike p
  | '%' :: p => GlobTok.star :: compileLike p
  | '_' :: p => GlobTok.anyc :: compileLike p
  | c :: p => GlobTok.lit c :: compileLike p

def sqlLike (pat s : String) : Bool :=
  tokMatch (compileLike pat.data) s.data

/-! ### ISO-8601 timestamps (`datetime.fromisoformat(..).timestamp()`)

Only timestamps carrying an explicit UTC designator `Z` or a `+HH:MM`/`-HH:MM`
offset are modelled (a naive timestamp converts through the host's local
timezone, which has no place in a pure model); the rows exercised by the
claims all carry `Z`. -/

def charDigit (c : Char) : Option Nat :=
  if c.isDigit then some (c.toNat - 48) else none

def parseFixedNatAux : Nat → Nat → List Char → Option (Nat × List Char)
  | 0, acc, cs => some (acc, cs)
  | n + 1, acc, cs =>
    match cs with
    | [] => none
    | c :: rest =>
      match charDigit c with
      | some d => parseFixedNatAux n (acc * 10 + d) rest
      | none => none

def parseFixedNat (n : Nat) (cs : List Char) : Option (Nat × List Char) :=
  parseFixedNatAux n 0 cs

def takeDigits : List Char → (List Nat × List Char)
  | [] => ([], [])
  | c :: rest =>
    match charDigit c with
    | some d =>
      match takeDigits rest with
      | (ds, r) => (d :: ds, r)
    | none => ([], c :: rest)

/-- Value of a fractional-digit list: `[1,5]` is `0.15`. -/
def fracVal (ds : List Nat) : ℚ :=
  ds.foldr (fun d acc => ((d : ℚ) + acc) / 10) 0

def isLeapYear (y : Nat) : Bool :=
  (y % 4 == 0 && y % 100 != 0) || y % 400 == 0

def daysInMonthN (y m : Nat) : Nat :=
  if m = 2 then (if isLeapYear y then 29 else 28)
  else if m = 4 ∨ m = 6 ∨ m = 9 ∨ m = 11 then 30
  else 31

/-- Days from 1970-01-01 to y-m-d in the proleptic Gregorian calendar
(civil-from-days algorithm; operands are nonnegative for years ≥ 1). -/
def daysFromCivil (y m d : Int) : Int :=
  let y' := if m ≤ 2 then y - 1 else y
  let era := Int.tdiv (if 0 ≤ y' then y' else y' - 399) 400
  let yoe := y' - era * 400
  let mp := Int.emod (m + 9) 12
  let doy := Int.tdiv (153 * mp + 2) 5 + d - 1
  let doe := yoe * 365 + Int.tdiv yoe 4 - Int.tdiv yoe 100 + doy
  era * 146097 + doe - 719468

def parseTZOffset (cs : List Char) : Option Int := do
  let (h, cs) ← parseFixedNat 2 cs
  let cs ← (match cs with | ':' :: rest => some rest | _ => none)
  let (m, cs) ← parseFixedNat 2 cs
  match cs with
  | [] => if h < 24 ∧ m < 60 then some ((h : Int) * 3600 + (m : Int) * 60) else none
  | _ => none

def parseTZ : List Char → Option Int
  | ['Z'] => some 0
  | '+' :: rest => parseTZOffset rest
  | '-' :: rest => (parseTZOffset rest).map (fun o => -o)
  | _ => none

/-- Unix-epoch value (in seconds, exact) of an ISO-8601 timestamp with an
explicit offset, as computed by `datetime.fromisoformat(s).timestamp()`. -/
def parseIso (s : String) : Option ℚ := do
  let (y, cs) ← parseFixedNat 4 s.data
  let cs ← (match cs with | '-' :: rest => some rest | _ => none)
  let (mo, cs) ← parseFixedNat 2 cs
  let cs ← (match cs with | '-' :: rest => some rest | _ => none)
  let (d, cs) ← parseFixedNat 2 cs
  match cs with
  | [] => none
  | _sep :: cs => do
    let (hr, cs) ← parseFixedNat 2 cs
    let cs ← (match cs with | ':' :: rest => some rest | _ => none)
    let (mi, cs) ← parseFixedNat 2 cs
    let cs ← (match cs with | ':' :: rest => some rest | _ => none)
    let (sec, cs) ← parseFixedNat 2 cs
    let fr : List Nat × List Char :=
      match cs with
      | '.' :: rest => takeDigits rest
      | ',' :: rest => takeDigits rest
      | _ => ([], cs)
    let off ← parseTZ fr.2
    if 1 ≤ y ∧ y ≤ 9999 ∧ 1 ≤ mo ∧ mo ≤ 12 ∧ 1 ≤ d ∧ d ≤ daysInMonthN y mo ∧
        hr < 24 ∧ mi < 60 ∧ sec < 60 then
      let secsTotal : Int := daysFromCivil (y : Int) (mo : Int) (d : Int) * 86400 +
        (hr : Int) * 3600 + (mi : Int) * 60 + (sec : Int) - off
      match fr.1 with
      | [] => some ((secsTotal : ℚ))
      | ds => some ((secsTotal : ℚ) + fracVal ds)
    else none

/-! ### Data model -/

/-- One selected row of `storage.objects`: the query projects
`name, created_at, updated_at, last_accessed_at, metadata->size`, the last
surfacing under the key `size`. -/
structure Row where
  name : String
  bucket_id : String
  created_at : String
  updated_at : String
  last_accessed_at : String
  size : ℚ
deriving DecidableEq

/-- The `File` TypedDict produced by `translate_storage_file`. -/
structure File where
  path : String
  size : ℚ
  create_time : ℚ
  update_time : ℚ
  access_time : ℚ
deriving DecidableEq

/-- Immutable `Bucket` configuration: bucket id, optional path scope and
the (already `or ()`-normalised) extension allow-list. -/
structure Scope where
  bucket_id : String
  path : Option String
  extensions : List String
deriving DecidableEq

/-- `translate_storage_file` (source lines 104-111): `none` models the
ValueError a malformed timestamp raises past this function. -/
def translate_storage_file (r : Row) : Option File :=
  match parseIso r.last_accessed_at, parseIso r.created_at, parseIso r.updated_at with
  | some a, some c, some u =>
    some { path := r.name, size := r.size,
           access_time := a / 1000, create_time := c / 1000, update_time := u / 1000 }
  | _, _, _ => none

/-- `tuple(map(translate_storage_file, raw_files))`: forcing the tuple
translates every row; the first failure propagates. -/
def translateAll : List Row → Option (List File)
  | [] => some []
  | r :: rs =>
    match translate_storage_file r, translateAll rs with
    | some f, some fs => some (f :: fs)
    | _, _ => none

/-- `Bucket._query` (source lines 87-98): filter on `bucket_id`, the
`like(name, path%)` scope, and the `like_any_of(name, %ext,...)` allow-list. -/
def scopeFilter (scope : Scope) (r : Row) : Bool :=
  (r.bucket_id == scope.bucket_id) &&
  (match scope.path with
   | none => true
   | some pre => sqlLike (pre ++ "%") r.name) &&
  (match scope.extensions with
   | [] => true
   | exts => exts.any (fun e => sqlLike ("%" ++ e) r.name))

/-- Executing the built query against the provider's row set. -/
def queryRows (store : List Row) (scope : Scope) : List Row :=
  store.filter (scopeFilter scope)

/-- The `filter_func` closure of `Bucket.list` (source lines 66-68):
a record passes iff its path fnmatches at least one glob pattern. -/
def filter_func (glob_patterns : List String) (file : File) : Bool :=
  glob_patterns.any (fun pattern => fnmatch file.path pattern)

/-- The client-side glob-filter stage of `Bucket.list`. -/
def globFilterStage (glob_patterns : List String) (files : List File) : List File :=
  files.filter (filter_func glob_patterns)

/-- Default glob patterns of `Bucket.list` (source line 60). -/
def bucket_list_default_patterns : List String := ["*/**"]

/-- Glob patterns `st_supabase_storage_browser` passes when its caller
supplies none (source line 294). -/
def browser_default_patterns : List String := ["**/*"]

/-- `Bucket.list` (source lines 58-82): scoped query, provider-side
order/offset/limit, per-row translation, then the client-side glob filter.
`order_by` delegates sorting to the provider and is modelled as an opaque
reordering. -/
def Bucket.list (store : List Row) (scope : Scope) (glob_patterns : List String)
    (limit offset : Option Nat) (order_by : Option (List Row → List Row)) :
    Option (List File) :=
  let q0 := queryRows store scope
  let q1 := match order_by with | some f => f q0 | none => q0
  let q2 := match offset with | some o => q1.drop o | none => q1
  let q3 := match limit with | some l => q2.take l | none => q2
  match translateAll q3 with
  | some files => some (globFilterStage glob_patterns files)
  | none => none

/-- `Bucket.exists` (source lines 84-85): the scoped query narrowed by
`eq(name, path)`, truthy iff a row comes back (object names are unique
within a bucket, so `maybe_single` sees at most one row). -/
def Bucket.exists (store : List Row) (scope : Scope) (p : String) : Bool :=
  (queryRows store scope).any (fun r => r.name == p)

/-! ### Preview handler registry and dispatcher -/

/-- The preview handler functions of the source, as opaque tokens. -/
inductive Handler where
  | _do_json_preview : Handler
  | _do_pdf_preview : Handler
  | _do_csv_preview : Handler
  | _do_tsv_preview : Handler
  | _do_plain_preview : Handler
  | _do_markdown_preview : Handler
  | _do_code_preview : Handler
  | _do_html_preview : Handler
  | _do_dbn_preview : Handler
deriving DecidableEq

/-- A Python dict with String keys and Handler values, insertion-ordered. -/
abbrev HDict : Type := List (String × Handler)

def dictLookup (d : HDict) (k : String) : Option Handler :=
  d.lookup k

/-- Python dict item assignment: replace in place if the key is present,
append otherwise. -/
def dictInsert (d : HDict) (k : String) (v : Handler) : HDict :=
  if d.any (fun kv => kv.1 == k) then
    d.map (fun kv => if kv.1 = k then (k, v) else kv)
  else d ++ [(k, v)]

/-- `d.update(o)`: insert every item of `o` in order. -/
def dictUpdate (d o : HDict) : HDict :=
  o.foldl (fun acc kv => dictInsert acc kv.1 kv.2) d

/-- `copy.copy` of a dict: a fresh object with equal shallow contents. -/
def dictCopy (d : HDict) : HDict := d

/-- The declarative `(extensions, handler)` list of source lines 206-242
(the commented-out molecule entries are absent from the built dict). -/
def preview_handler_entries : List (List String × Handler) :=
  [ ([".json"], Handler._do_json_preview),
    ([".pdf"], Handler._do_pdf_preview),
    ([".csv"], Handler._do_csv_preview),
    ([".tsv"], Handler._do_tsv_preview),
    ([".log", ".txt", ".md", ".upf", ".UPF", ".orb"], Handler._do_plain_preview),
    ([".md"], Handler._do_markdown_preview),
    ([".py", ".sh"], Handler._do_code_preview),
    ([".html", ".htm"], Handler._do_html_preview),
    ([".dbn"], Handler._do_dbn_preview) ]

/-- The flattening dict comprehension: outer loop over the pairs, inner loop
over each extension tuple, each iteration one dict assignment. -/
def PREVIEW_HANDLERS : HDict :=
  preview_handler_entries.foldl
    (fun d e => e.1.foldl (fun d' ext => dictInsert d' ext e.2) d) []

/-- `os.path.splitext(p)[1]` (posix): the suffix from the last dot after the
last separator, empty when the basename up to that dot is all dots. -/
def splitextExt (p : String) : String :=
  let cs := p.data
  let sepIndex : Int :=
    match (cs.reverse.findIdx? (fun x => x == '/')) with
    | some i => (cs.length : Int) - 1 - (i : Int)
    | none => -1
  let dotIndex : Int :=
    match (cs.reverse.findIdx? (fun x => x == '.')) with
    | some i => (cs.length : Int) - 1 - (i : Int)
    | none => -1
  if sepIndex < dotIndex then
    let base := (cs.drop (sepIndex + 1).toNat).take (dotIndex - sepIndex - 1).toNat
    if base.any (fun ch => ch != '.') then String.mk (cs.drop dotIndex.toNat) else ""
  else ""

/-- Python exceptions crossing the dispatcher boundary. -/
inductive PyErr where
  | connectionError : PyErr
  | valueError : String → PyErr
  | runtimeError : String → PyErr
deriving DecidableEq

/-- What content sniffing can report about fetched bytes: `image_match`,
`video_match`, `audio_match` are independent signature tests. -/
structure Content where
  isImage : Bool
  videoMime : Option String
  audioMime : Option String
deriving DecidableEq

/-- The external collaborators of `show_file_preview`: `urljoin`, the handler
bodies, and `requests.get(url).content`. -/
structure PreviewEnv where
  joinUrl : String → String → String
  runHandler : Handler → Option String → Except PyErr Unit
  fetch : Option String → Except PyErr Content

/-- `urljoin(artifacts_site, target_path) if artifacts_site else None`
(a falsy site is `None` or the empty string). -/
def previewUrl (env : PreviewEnv) (artifacts_site : Option String)
    (target_path : String) : Option String :=
  match artifacts_site with
  | none => none
  | some site => if site = "" then none else some (env.joinUrl site target_path)

/-- What ended up rendered in the preview container. -/
inductive RenderOutcome where
  | handlerOk : Handler → RenderOutcome
  | handlerFailed : Handler → PyErr → RenderOutcome
  | imageShown : RenderOutcome
  | videoShown : String → RenderOutcome
  | audioShown : String → RenderOutcome
  | noPreview : String → RenderOutcome
deriving DecidableEq

/-- The `try`-wrapped extension-matched branch: a handler exception is caught
and surfaced as `st.error` plus `st.exception(e)`. -/
def handlerBranch (env : PreviewEnv) (h : Handler) (url : Option String) :
    Except PyErr RenderOutcome :=
  match env.runHandler h url with
  | Except.ok _ => Except.ok (RenderOutcome.handlerOk h)
  | Except.error e => Except.ok (RenderOutcome.handlerFailed h e)

def sniffRender (content : Content) (ext : String) : RenderOutcome :=
  if content.isImage then RenderOutcome.imageShown
  else
    match content.videoMime with
    | some m => RenderOutcome.videoShown m
    | none =>
      match content.audioMime with
      | some m => RenderOutcome.audioShown m
      | none => RenderOutcome.noPreview ext

/-- The fallback branch (source lines 267-277): the fetch sits outside any
`try`, so its exception propagates. -/
def fallbackBranch (env : PreviewEnv) (url : Option String) (ext : String) :
    Except PyErr RenderOutcome :=
  match env.fetch url with
  | Except.error e => Except.error e
  | Except.ok content => Except.ok (sniffRender content ext)

/-- Per-call effective registry (source lines 258-259):
`handles = copy.copy(PREVIEW_HANDLERS); handles.update(overrides or {})`. -/
def effectiveHandles (globalReg overrides : HDict) : HDict :=
  dictUpdate (dictCopy globalReg) overrides

/-- `show_file_preview` (source lines 245-277), state-passing in the global
registry: first component is the registry after the call, second the
dispatch result (`Except.error` = an exception escaped the function). -/
def show_file_preview (env : PreviewEnv) (globalReg : HDict) (overrides : HDict)
    (target_path : String) (artifacts_site : Option String) :
    HDict × Except PyErr RenderOutcome :=
  match dictLookup (effectiveHandles globalReg overrides) (splitextExt target_path) with
  | some h =>
    (globalReg, handlerBranch env h (previewUrl env artifacts_site target_path))
  | none =>
    (globalReg, fallbackBranch env (previewUrl env artifacts_site target_path)
      (splitextExt target_path))

/-! ### Orchestrator event handling (source lines 342-362) -/

/-- Values the opaque UI bundle can return. -/
inductive PVal where
  | str : String → PVal
  | dict : List (String × PVal) → PVal
  | other : PVal

/-- Program points at which a key lookup can fail in the event-handling
region: inside the generator of the ignore filter (line 345), at
`file = event["target"]` (line 347), at `file['path']` (line 349). -/
inductive KSite where
  | ignoreFilter : KSite
  | targetAccess : KSite
  | existsArg : KSite
deriving DecidableEq

/-- A KeyError (or subscripting failure), tagged with the program point. -/
structure KErr where
  site : KSite
  key : String
deriving DecidableEq

inductive UIAction where
  | warning : String → UIAction
  | preview : String → UIAction
deriving DecidableEq

/-- `v[k]` subscripting: fails on a missing key (KeyError) and on a non-dict
value (TypeError), both collapsed into a keyed error at the given site. -/
def pvalLookup (site : KSite) (v : PVal) (k : String) : Except KErr PVal :=
  match v with
  | PVal.dict entries =>
    match entries.lookup k with
    | some x => Except.ok x
    | none => Except.error ⟨site, k⟩
  | _ => Except.error ⟨site, k⟩

/-- `str.endswith`, on the character lists. -/
def pyEndswith (s suf : String) : Bool :=
  List.isSuffixOf suf.data s.data

/-- `any(event["target"]["path"].endswith(ft) for ft in ignores)`: the
generator body runs once per element, so an empty list never touches the
event, and the first matching suffix short-circuits. -/
def selectPathEndswithAny (event : PVal) (ignores : List String) : Except KErr Bool :=
  match ignores with
  | [] => Except.ok false
  | ft :: rest =>
    match pvalLookup KSite.ignoreFilter event "target" with
    | Except.error e => Except.error e
    | Except.ok t =>
      match pvalLookup KSite.ignoreFilter t "path" with
      | Except.error e => Except.error e
      | Except.ok (PVal.str p) =>
        if pyEndswith p ft then Except.ok true
        else selectPathEndswithAny event rest
      | Except.ok _ => Except.error ⟨KSite.ignoreFilter, "path"⟩

/-- The event-handling region of `st_supabase_storage_browser` (source lines
342-362): selection events are filtered, checked for existence, previewed,
and the event is returned; every other event passes through unexamined. -/
def handleSelectEvent (store : List Row) (scope : Scope)
    (select_filetype_ignores : Option (List String)) (show_preview : Bool)
    (event : PVal) : Except KErr (List UIAction × PVal) :=
  match event with
  | PVal.dict entries =>
    match entries.lookup "type" with
    | some (PVal.str t) =>
      if t = "SELECT_FILE" then
        match selectPathEndswithAny (PVal.dict entries) (select_filetype_ignores.getD []) with
        | Except.error e => Except.error e
        | Except.ok true => Except.ok ([], PVal.dict entries)
        | Except.ok false =>
          match pvalLookup KSite.targetAccess (PVal.dict entries) "target" with
          | Except.error e => Except.error e
          | Except.ok file =>
            match pvalLookup KSite.existsArg file "path" with
            | Except.error e => Except.error e
            | Except.ok (PVal.str p) =>
              if Bucket.exists store scope p then
                if show_preview then Except.ok ([UIAction.preview p], PVal.dict entries)
                else Except.ok ([], PVal.dict entries)
              else Except.ok ([UIAction.warning ("File " ++ p ++ " not found")], PVal.dict entries)
            | Except.ok _ => Except.error ⟨KSite.existsArg, "path"⟩
      else Except.ok ([], PVal.dict entries)
    | _ => Except.ok ([], PVal.dict entries)
  | ev => Except.ok ([], ev)

/-- Site of the error a run ended with, if it erred. -/
def resultErrSite : Except KErr (List UIAction × PVal) → Option KSite
  | Except.error e => some e.site
  | Except.ok _ => none

/-- `true` when a dict event has no `"target"` entry, or a dict `"target"`
with no `"path"` entry. -/
def lacksTargetPath (entries : List (String × PVal)) : Bool :=
  match entries.lookup "target" with
  | none => true
  | some (PVal.dict t) => (t.lookup "path").isNone
  | some _ => false

/-! ### Concrete inputs for the claim witnesses and counterexamples -/

def isOkE (r : Except PyErr RenderOutcome) : Bool :=
  match r with
  | Except.ok _ => true
  | Except.error _ => false

/-- Environment whose fetch always fails (network down) and whose handlers
all succeed. -/
def env0 : PreviewEnv :=
  { joinUrl := fun a b => a ++ b,
    runHandler := fun _ _ => Except.ok (),
    fetch := fun _ => Except.error PyErr.connectionError }

/-- Same as `env0` except that fetching succeeds with unclassifiable bytes. -/
def env0' : PreviewEnv :=
  { joinUrl := fun a b => a ++ b,
    runHandler := fun _ _ => Except.ok (),
    fetch := fun _ => Except.ok { isImage := false, videoMime := none, audioMime := none } }

/-- Environment whose handlers always raise. -/
def envHandlerFail : PreviewEnv :=
  { joinUrl := fun a b => a ++ b,
    runHandler := fun _ _ => Except.error (PyErr.runtimeError "boom"),
    fetch := fun _ => Except.error PyErr.connectionError }

def row5 : Row :=
  { name := "a/b.csv", bucket_id := "bkt",
    created_at := "2024-01-01T00:00:00Z",
    updated_at := "2024-02-01T00:00:00Z",
    last_accessed_at := "2024-03-01T00:00:00Z",
    size := 42 }

def rowTxt : Row :=
  { name := "a.txt", bucket_id := "bkt",
    created_at := "2024-01-01T00:00:00Z",
    updated_at := "2024-01-01T00:00:00Z",
    last_accessed_at := "2024-01-01T00:00:00Z",
    size := 1 }

def store1 : List Row := [rowTxt]

def scope1 : Scope := { bucket_id := "bkt", path := none, extensions := [] }

def fileTxt : File :=
  { path := "a.txt", size := 1, create_time := 0, update_time := 0, access_time := 0 }

/-- First-hit choice between two optional handlers (the merge semantics of a
dict updated with overrides). -/
def optOr (a b : Option Handler) : Option Handler :=
  match a with
  | some v => some v
  | none => b

/-- A well-formed SELECT_FILE event whose path is absent from the store. -/
def entries9 : List (String × PVal) :=
  [("type", PVal.str "SELECT_FILE"), ("target", PVal.dict [("path", PVal.str "gone.txt")])]

/-- A SELECT_FILE event with no target entry at all. -/
def entries10 : List (String × PVal) :=
  [("type", PVal.str "SELECT_FILE")]

/-! ### Helper lemmas: the glob matcher -/

theorem mem_suffixes {u s : List Char} : u ∈ suffixes s ↔ u <:+ s := by
  induction s with
  | nil => simp [suffixes, List.suffix_nil]
  | cons c s ih => simp [suffixes, ih, List.suffix_cons_iff]

theorem tokMatch_star_iff (t : List GlobTok) (s : List Char) :
    tokMatch (GlobTok.star :: t) s = true ↔ ∃ u, u <:+ s ∧ tokMatch t u = true := by
  simp only [tokMatch, List.any_eq_true]
  constructor
  · rintro ⟨u, hu, hm⟩
    exact ⟨u, mem_suffixes.mp hu, hm⟩
  · rintro ⟨u, hu, hm⟩
    exact ⟨u, mem_suffixes.mpr hu, hm⟩

theorem tokMatch_single_star (s : List Char) : tokMatch [GlobTok.star] s = true := by
  rw [tokMatch_star_iff]
  exact ⟨[], List.nil_suffix, by simp [tokMatch]⟩

theorem tokMatch_double_star (s : List Char) :
    tokMatch [GlobTok.star, GlobTok.star] s = true := by
  rw [tokMatch_star_iff]
  exact ⟨[], List.nil_suffix, tokMatch_single_star []⟩

theorem tokMatch_lit_cons (c : Char) (t : List GlobTok) (x : Char) (s : List Char) :
    tokMatch (GlobTok.lit c :: t) (x :: s) = ((c == x) && tokMatch t s) := rfl

theorem tokMatch_lit_nil (c : Char) (t : List GlobTok) :
    tokMatch (GlobTok.lit c :: t) [] = false := rfl

/-- The compiled form of `*/**` accepts exactly the names containing a
separator. -/
theorem tokMatch_starSlash (s : List Char) :
    tokMatch [GlobTok.star, GlobTok.lit '/', GlobTok.star, GlobTok.star] s = true ↔
      '/' ∈ s := by
  rw [tokMatch_star_iff]
  constructor
  · rintro ⟨u, hu, hm⟩
    match u, hm with
    | [], hm => simp [tokMatch_lit_nil] at hm
    | c :: u', hm =>
      rw [tokMatch_lit_cons, Bool.and_eq_true, beq_iff_eq] at hm
      obtain ⟨a, ha⟩ := hu
      rw [← hm.1] at ha
      rw [← ha]
      exact List.mem_append_right a (by simp)
  · intro hin
    obtain ⟨a, b, hab⟩ := List.append_of_mem hin
    refine ⟨'/' :: b, ⟨a, hab.symm⟩, ?_⟩
    rw [tokMatch_lit_cons]
    simp [tokMatch_double_star]

/-- The compiled form of `**/*` accepts exactly the names containing a
separator. -/
theorem tokMatch_starStarSlash (s : List Char) :
    tokMatch [GlobTok.star, GlobTok.star, GlobTok.lit '/', GlobTok.star] s = true ↔
      '/' ∈ s := by
  rw [tokMatch_star_iff]
  constructor
  · rintro ⟨u, hu, hm⟩
    rw [tokMatch_star_iff] at hm
    obtain ⟨v, hv, hm⟩ := hm
    match v, hm with
    | [], hm => simp [tokMatch_lit_nil] at hm
    | c :: v', hm =>
      rw [tokMatch_lit_cons, Bool.and_eq_true, beq_iff_eq] at hm
      obtain ⟨a, ha⟩ := hv.trans hu
      rw [← hm.1] at ha
      rw [← ha]
      exact List.mem_append_right a (by simp)
  · intro hin
    obtain ⟨a, b, hab⟩ := List.append_of_mem hin
    refine ⟨'/' :: b, ⟨a, hab.symm⟩, ?_⟩
    rw [tokMatch_star_iff]
    refine ⟨'/' :: b, List.suffix_refl _, ?_⟩
    rw [tokMatch_lit_cons]
    simp [tokMatch_single_star]

theorem fnmatch_star_any (s : String) : fnmatch s "*" = true := by
  have hc : compileGlob ("*".data) = [GlobTok.star] := by decide
  rw [fnmatch, hc]
  exact tokMatch_single_star s.data

theorem fnmatch_bucket_default (s : String) :
    fnmatch s "*/**" = true ↔ '/' ∈ s.data := by
  have hc : compileGlob ("*/**".data) =
      [GlobTok.star, GlobTok.lit '/', GlobTok.star, GlobTok.star] := by decide
  rw [fnmatch, hc]
  exact tokMatch_starSlash s.data

theorem fnmatch_browser_default (s : String) :
    fnmatch s "**/*" = true ↔ '/' ∈ s.data := by
  have hc : compileGlob ("**/*".data) =
      [GlobTok.star, GlobTok.star, GlobTok.lit '/', GlobTok.star] := by decide
  rw [fnmatch, hc]
  exact tokMatch_starStarSlash s.data

/-! ### Helper lemmas: dict operations -/

/-- Lookup after the in-place replacement map used by `dictInsert` when the
key is present. -/
theorem lookup_mapReplace (d : HDict) (k k' : String) (v : Handler) :
    List.lookup k' (d.map (fun kv => if kv.1 = k then (k, v) else kv)) =
      (if k' = k then (if d.any (fun kv => kv.1 == k) then some v else none)
       else List.lookup k' d) := by
  induction d with
  | nil => by_cases h : k' = k <;> simp [h]
  | cons kv d ih =>
    obtain ⟨a, b⟩ := kv
    simp only [List.map_cons]
    by_cases hak : a = k
    · rw [if_pos (show (a, b).1 = k from hak)]
      by_cases h : k' = k
      · simp [List.lookup, h, hak, List.any_cons]
      · have h1 : (k' == k) = false := by simp [h]
        have h2 : (k' == a) = false := by simp [hak, h]
        simp [List.lookup, h1, h2, ih, h]
    · rw [if_neg (show ¬ (a, b).1 = k from hak)]
      have h1 : (a == k) = false := by simp [hak]
      by_cases h2 : k' = a
      · have h3 : ¬ k' = k := fun hx => hak (h2 ▸ hx)
        simp [List.lookup, h2, h3, hak]
      · have h4 : (k' == a) = false := by simp [h2]
        have hco : (a == k || d.any fun kv => kv.1 == k) = (d.any fun kv => kv.1 == k) := by
          rw [h1, Bool.false_or]
        simp only [List.lookup, h4, List.any_cons, hco]
        simp [ih]

/-- Lookup after appending a fresh binding at the end, when the key is not
already bound. -/
theorem lookup_appendFresh (d : HDict) (k k' : String) (v : Handler)
    (hd : d.any (fun kv => kv.1 == k) = false) :
    List.lookup k' (d ++ [(k, v)]) = if k' = k then some v else List.lookup k' d := by
  induction d with
  | nil =>
    by_cases h : k' = k
    · simp [List.lookup, h]
    · have h5 : (k' == k) = false := by simp [h]
      simp [List.lookup, h5, h]
  | cons kv d ih =>
    obtain ⟨a, b⟩ := kv
    simp only [List.any_cons, Bool.or_eq_false_iff] at hd
    simp only [List.cons_append]
    by_cases h2 : k' = a
    · have hak : ¬ k' = k := by
        intro hx
        have hne := hd.1
        rw [beq_eq_false_iff_ne] at hne
        exact hne (h2 ▸ hx)
      have h6 : ¬ a = k := by simpa using hd.1
      simp [List.lookup, h2, hak, h6]
    · have h4 : (k' == a) = false := by simp [h2]
      simp [List.lookup, h4, ih hd.2]

theorem dictLookup_dictInsert (d : HDict) (k k' : String) (v : Handler) :
    dictLookup (dictInsert d k v) k' = if k' = k then some v else dictLookup d k' := by
  by_cases hd : d.any (fun kv => kv.1 == k) = true
  · simp only [dictInsert, hd, if_true, dictLookup]
    rw [lookup_mapReplace]
    simp [hd]
  · have hd' : d.any (fun kv => kv.1 == k) = false := by
      cases hb : d.any (fun kv => kv.1 == k)
      · rfl
      · exact absurd hb hd
    simp only [dictInsert, hd', Bool.false_eq_true, if_false, dictLookup]
    exact lookup_appendFresh d k k' v hd'

theorem optOr_some (v : Handler) (b : Option Handler) : optOr (some v) b = some v := rfl

theorem optOr_none (b : Option Handler) : optOr none b = b := rfl

theorem lookup_eq_none_of_not_mem (o : HDict) (k : String)
    (h : k ∉ o.map Prod.fst) : List.lookup k o = none := by
  induction o with
  | nil => rfl
  | cons kv o ih =>
    obtain ⟨a, b⟩ := kv
    simp only [List.map_cons, List.mem_cons, not_or] at h
    have hne : (k == a) = false := by simp [h.1]
    simp [List.lookup, hne, ih h.2]

theorem dictLookup_dictUpdate (d o : HDict) (k : String)
    (ho : (o.map Prod.fst).Nodup) :
    dictLookup (dictUpdate d o) k = optOr (List.lookup k o) (dictLookup d k) := by
  induction o generalizing d with
  | nil => simp [dictUpdate, List.lookup, optOr_none]
  | cons kv o ih =>
    obtain ⟨k0, v0⟩ := kv
    simp only [List.map_cons, List.nodup_cons] at ho
    have hupd : dictUpdate d ((k0, v0) :: o) = dictUpdate (dictInsert d k0 v0) o := rfl
    rw [hupd, ih (dictInsert d k0 v0) ho.2]
    by_cases h : k = k0
    · subst h
      rw [lookup_eq_none_of_not_mem o k ho.1, optOr_none, dictLookup_dictInsert]
      have hr : List.lookup k ((k, v0) :: o) = some v0 := by simp [List.lookup_cons]
      rw [hr, optOr_some]
      simp
    · have hr : List.lookup k ((k0, v0) :: o) = List.lookup k o := by
        have hne : (k == k0) = false := by simp [h]
        simp [List.lookup_cons, hne]
      rw [hr, dictLookup_dictInsert]
      simp [h]

/-! ### Helper lemmas: translation and listing -/

theorem translate_path {r : Row} {f : File} (h : translate_storage_file r = some f) :
    f.path = r.name := by
  rw [translate_storage_file] at h
  cases ha : parseIso r.last_accessed_at with
  | none => simp [ha] at h
  | some a =>
    cases hc : parseIso r.created_at with
    | none => simp [ha, hc] at h
    | some c =>
      cases hu : parseIso r.updated_at with
      | none => simp [ha, hc, hu] at h
      | some u =>
        simp only [ha, hc, hu, Option.some.injEq] at h
        rw [← h]

theorem translateAll_ok (rows : List Row)
    (h : ∀ r ∈ rows, (translate_storage_file r).isSome = true) :
    ∃ fs, translateAll rows = some fs ∧ fs.map File.path = rows.map Row.name := by
  induction rows with
  | nil => exact ⟨[], rfl, rfl⟩
  | cons r rs ih =>
    obtain ⟨f, hf⟩ := Option.isSome_iff_exists.mp (h r (List.mem_cons_self r rs))
    obtain ⟨fs, hfs, hp⟩ := ih (fun x hx => h x (List.mem_cons_of_mem r hx))
    refine ⟨f :: fs, ?_, ?_⟩
    · simp only [translateAll, hf, hfs]
    · simp [hp, translate_path hf]

theorem exists_iff_mem_names (store : List Row) (scope : Scope) (p : String) :
    Bucket.exists store scope p = true ↔ p ∈ (queryRows store scope).map Row.name := by
  rw [Bucket.exists, List.any_eq_true]
  constructor
  · rintro ⟨r, hr, hname⟩
    exact List.mem_map.mpr ⟨r, hr, beq_iff_eq.mp hname⟩
  · intro hp
    obtain ⟨r, hr, hname⟩ := List.mem_map.mp hp
    exact ⟨r, hr, beq_iff_eq.mpr hname⟩

theorem globFilterStage_star (files : List File) :
    globFilterStage ["*"] files = files := by
  rw [globFilterStage, List.filter_eq_self]
  intro f _
  simp [filter_func, fnmatch_star_any]

/-! ### Helper lemmas: dispatcher and orchestrator -/

theorem previewUrl_congr {env1 env2 : PreviewEnv} (hjoin : env1.joinUrl = env2.joinUrl)
    (site : Option String) (p : String) :
    previewUrl env1 site p = previewUrl env2 site p := by
  cases site with
  | none => rfl
  | some s => simp [previewUrl, hjoin]

theorem selectPath_ok_false (entries tEntries : List (String × PVal)) (p : String)
    (ign : List String)
    (ht : entries.lookup "target" = some (PVal.dict tEntries))
    (hp : tEntries.lookup "path" = some (PVal.str p))
    (hpass : ∀ ft ∈ ign, pyEndswith p ft = false) :
    selectPathEndswithAny (PVal.dict entries) ign = Except.ok false := by
  induction ign with
  | nil => rfl
  | cons ft rest ih =>
    have h1 : pyEndswith p ft = false := hpass ft (List.mem_cons_self ft rest)
    simp only [selectPathEndswithAny, pvalLookup, ht, hp, h1, Bool.false_eq_true, if_false]
    exact ih (fun x hx => hpass x (List.mem_cons_of_mem ft hx))

/-! ### Claims -/

/-- C3: the glob-filter stage of Bucket.list returns exactly the records of F
whose path matches at least one pattern of the non-empty pattern set P
(fnmatch semantics, OR across patterns), in their original relative order. -/
theorem glob_filter_exact (P : List String) (F : List File) (f : File)
    (hP : P ≠ []) :
    (f ∈ globFilterStage P F ↔
      f ∈ F ∧ P.any (fun pat => fnmatch f.path pat) = true) ∧
    (globFilterStage P F).Sublist F := by
  refine ⟨?_, List.filter_sublist F⟩
  simp [globFilterStage, List.mem_filter, filter_func]

theorem glob_filter_exact_witness :
    (["*.txt"] : List String) ≠ [] ∧
    ((fileTxt ∈ globFilterStage ["*.txt"] [fileTxt] ↔
        fileTxt ∈ [fileTxt] ∧
          (["*.txt"].any (fun pat => fnmatch fileTxt.path pat)) = true) ∧
      (globFilterStage ["*.txt"] [fileTxt]).Sublist [fileTxt]) :=
  ⟨by decide, glob_filter_exact ["*.txt"] [fileTxt] fileTxt (by decide)⟩

/-- C4 counterexample: the top-level path a.txt (no separator) fails both
default glob pattern sets, so the default filter is not permissive for every
record. -/
theorem default_patterns_reject_toplevel :
    filter_func bucket_list_default_patterns fileTxt = false ∧
    filter_func browser_default_patterns fileTxt = false ∧
    globFilterStage bucket_list_default_patterns [fileTxt] = [] ∧
    globFilterStage browser_default_patterns [fileTxt] = [] := by
  decide

/-- C4 (amended): the default pattern sets are permissive exactly below the
top level - a record passes the default glob filter iff its path contains a
separator, so top-level files are excluded. -/
theorem default_patterns_match_iff_separator (f : File) :
    (filter_func bucket_list_default_patterns f = true ↔ '/' ∈ f.path.data) ∧
    (filter_func browser_default_patterns f = true ↔ '/' ∈ f.path.data) := by
  constructor
  · rw [bucket_list_default_patterns, filter_func]
    simp only [List.any_cons, List.any_nil, Bool.or_false]
    exact fnmatch_bucket_default f.path
  · rw [browser_default_patterns, filter_func]
    simp only [List.any_cons, List.any_nil, Bool.or_false]
    exact fnmatch_browser_default f.path

/-- C5: the sample provider row translates to a File record with path
a/b.csv, size 42, and each time field equal to the parsed Unix-epoch value
of the corresponding timestamp divided by 1000. -/
theorem translate_row5_sample :
    parseIso "2024-01-01T00:00:00Z" = some 1704067200 ∧
    parseIso "2024-02-01T00:00:00Z" = some 1706745600 ∧
    parseIso "2024-03-01T00:00:00Z" = some 1709251200 ∧
    translate_storage_file row5 = some
      { path := "a/b.csv", size := 42,
        create_time := 1704067200 / 1000,
        update_time := 1706745600 / 1000,
        access_time := 1709251200 / 1000 } := by
  exact ⟨rfl, rfl, rfl, rfl⟩

/-- C8: in the flattened registry every extension key is bound exactly once,
and for the duplicated .md key the last registration (the markdown handler)
wins; the earlier plain-text binding is unreachable under that key. -/
theorem md_last_writer_wins :
    dictLookup PREVIEW_HANDLERS ".md" = some Handler._do_markdown_preview ∧
    (PREVIEW_HANDLERS.map Prod.fst).Nodup ∧
    dictLookup PREVIEW_HANDLERS ".md" ≠ some Handler._do_plain_preview := by
  decide

/-- C2 counterexample: the stored row a.txt makes exists true, while list
with the caller's glob patterns ( *.csv here ) returns no record whose path
is a.txt - it returns no record at all. -/
theorem exists_without_list_record :
    Bucket.exists store1 scope1 "a.txt" = true ∧
    Bucket.list store1 scope1 ["*.csv"] none none none = some [] := by
  exact ⟨by decide, rfl⟩

/-- C2 (amended): exists(p) is equivalent to membership of p among the paths
returned by a list() call under the same scope whose glob patterns match p
(the permissive pattern * here); exists consults the scope but never the
caller's glob patterns, so the equivalence fails for pattern sets that
exclude p. -/
theorem exists_iff_permissive_list (store : List Row) (scope : Scope) (p : String)
    (hwf : ∀ r ∈ queryRows store scope, (translate_storage_file r).isSome = true) :
    (Bucket.list store scope ["*"] none none none).isSome = true ∧
    (Bucket.exists store scope p = true ↔
      p ∈ ((Bucket.list store scope ["*"] none none none).getD []).map File.path) := by
  obtain ⟨fs, hfs, hp⟩ := translateAll_ok (queryRows store scope) hwf
  have hlist : Bucket.list store scope ["*"] none none none = some fs := by
    simp only [Bucket.list, hfs, globFilterStage_star]
  rw [hlist]
  refine ⟨rfl, ?_⟩
  rw [exists_iff_mem_names, Option.getD_some, hp]

theorem exists_iff_permissive_list_witness :
    (Bucket.list store1 scope1 ["*"] none none none).isSome = true ∧
    (Bucket.exists store1 scope1 "a.txt" = true ↔
      "a.txt" ∈ ((Bucket.list store1 scope1 ["*"] none none none).getD []).map File.path) :=
  exists_iff_permissive_list store1 scope1 "a.txt" (by decide)

/-- C7: the per-call dispatch map is a shallow copy of the global registry
with the overrides merged on top - an override wins on key collision - and
the call leaves the global PREVIEW_HANDLERS unchanged. -/
theorem overrides_merge_and_frame (env : PreviewEnv) (o : HDict) (p : String)
    (site : Option String) (k : String) (ho : (o.map Prod.fst).Nodup) :
    (show_file_preview env PREVIEW_HANDLERS o p site).1 = PREVIEW_HANDLERS ∧
    dictLookup (effectiveHandles PREVIEW_HANDLERS o) k =
      optOr (dictLookup o k) (dictLookup PREVIEW_HANDLERS k) := by
  constructor
  · unfold show_file_preview
    cases hl : dictLookup (effectiveHandles PREVIEW_HANDLERS o) (splitextExt p) with
    | none => rfl
    | some h => rfl
  · simp only [effectiveHandles, dictCopy, dictLookup]
    exact dictLookup_dictUpdate PREVIEW_HANDLERS o k ho

theorem overrides_merge_and_frame_witness :
    (([(".xyz", Handler._do_json_preview)] : HDict).map Prod.fst).Nodup ∧
    ((show_file_preview env0 PREVIEW_HANDLERS
        [(".xyz", Handler._do_json_preview)] "f.bin" none).1 = PREVIEW_HANDLERS ∧
      dictLookup (effectiveHandles PREVIEW_HANDLERS [(".xyz", Handler._do_json_preview)]) ".xyz" =
        optOr (dictLookup ([(".xyz", Handler._do_json_preview)] : HDict) ".xyz")
          (dictLookup PREVIEW_HANDLERS ".xyz")) :=
  ⟨by decide, overrides_merge_and_frame env0 [(".xyz", Handler._do_json_preview)]
    "f.bin" none ".xyz" (by decide)⟩

/-- C1 counterexample: on the fallback path (no extension match) a failing
fetch escapes show_file_preview as an exception, so the dispatcher does not
catch every exception at its boundary. -/
theorem preview_fallback_fetch_escapes :
    (show_file_preview env0 PREVIEW_HANDLERS [] "data.zzz" (some "https://x/")).2 =
      Except.error PyErr.connectionError := by
  rfl

/-- C1 (amended): exceptions raised by an extension-matched handler are
caught at the dispatcher boundary and surfaced with the failure detail, and
nothing escapes on that branch; only on the fallback path (the fetch before
sniffing) can an exception propagate to the caller. -/
theorem preview_handler_errors_contained (env : PreviewEnv) (g o : HDict)
    (p : String) (site : Option String) (h : Handler) (e : PyErr)
    (hmatch : dictLookup (effectiveHandles g o) (splitextExt p) = some h) :
    isOkE (show_file_preview env g o p site).2 = true ∧
    (env.runHandler h (previewUrl env site p) = Except.error e →
      (show_file_preview env g o p site).2 =
        Except.ok (RenderOutcome.handlerFailed h e)) := by
  constructor
  · simp only [show_file_preview, hmatch]
    cases hr : env.runHandler h (previewUrl env site p) with
    | ok u => simp [handlerBranch, hr, isOkE]
    | error e' => simp [handlerBranch, hr, isOkE]
  · intro herr
    simp only [show_file_preview, hmatch, handlerBranch, herr]

theorem preview_handler_errors_contained_witness :
    dictLookup (effectiveHandles PREVIEW_HANDLERS []) (splitextExt "a/b.json") =
      some Handler._do_json_preview ∧
    (isOkE (show_file_preview envHandlerFail PREVIEW_HANDLERS [] "a/b.json" none).2 = true ∧
      (envHandlerFail.runHandler Handler._do_json_preview
          (previewUrl envHandlerFail none "a/b.json") =
            Except.error (PyErr.runtimeError "boom") →
        (show_file_preview envHandlerFail PREVIEW_HANDLERS [] "a/b.json" none).2 =
          Except.ok (RenderOutcome.handlerFailed Handler._do_json_preview
            (PyErr.runtimeError "boom")))) :=
  ⟨by decide, preview_handler_errors_contained envHandlerFail PREVIEW_HANDLERS [] "a/b.json"
    none Handler._do_json_preview (PyErr.runtimeError "boom") (by decide)⟩

/-- C6: preview resolution is a pure function of the effective handler map
and the target path, and the extension match takes precedence: under an
extension match the result is the handler branch and is independent of the
fetch/sniffing environment, so the content-sniffing fallback is never
consulted. -/
theorem preview_dispatch_extension_first (env1 env2 : PreviewEnv) (g o : HDict)
    (p : String) (site : Option String) (h : Handler)
    (hrun : env1.runHandler = env2.runHandler)
    (hjoin : env1.joinUrl = env2.joinUrl)
    (hmatch : dictLookup (effectiveHandles g o) (splitextExt p) = some h) :
    show_file_preview env1 g o p site = show_file_preview env2 g o p site ∧
    (show_file_preview env1 g o p site).2 =
      handlerBranch env1 h (previewUrl env1 site p) := by
  have hb : handlerBranch env1 h (previewUrl env1 site p) =
      handlerBranch env2 h (previewUrl env2 site p) := by
    rw [handlerBranch, handlerBranch, hrun, previewUrl_congr hjoin]
  constructor
  · simp only [show_file_preview, hmatch]
    rw [hb]
  · simp only [show_file_preview, hmatch]

theorem preview_dispatch_extension_first_witness :
    dictLookup (effectiveHandles PREVIEW_HANDLERS []) (splitextExt "a/b.json") =
      some Handler._do_json_preview ∧
    (show_file_preview env0 PREVIEW_HANDLERS [] "a/b.json" (some "https://x/") =
        show_file_preview env0' PREVIEW_HANDLERS [] "a/b.json" (some "https://x/") ∧
      (show_file_preview env0 PREVIEW_HANDLERS [] "a/b.json" (some "https://x/")).2 =
        handlerBranch env0 Handler._do_json_preview
          (previewUrl env0 (some "https://x/") "a/b.json")) :=
  ⟨by decide, preview_dispatch_extension_first env0 env0' PREVIEW_HANDLERS [] "a/b.json"
    (some "https://x/") Handler._do_json_preview rfl rfl (by decide)⟩

/-- C9: a SELECT_FILE event that passes the suffix ignore filter but whose
path fails the exists check produces exactly a non-fatal warning, no preview
action, and the identical event value is returned to the caller. -/
theorem stale_selection_warns (store : List Row) (scope : Scope)
    (ign : Option (List String)) (sp : Bool)
    (entries tEntries : List (String × PVal)) (p : String)
    (htype : entries.lookup "type" = some (PVal.str "SELECT_FILE"))
    (htarget : entries.lookup "target" = some (PVal.dict tEntries))
    (hpath : tEntries.lookup "path" = some (PVal.str p))
    (hpass : ∀ ft ∈ ign.getD [], pyEndswith p ft = false)
    (hexists : Bucket.exists store scope p = false) :
    handleSelectEvent store scope ign sp (PVal.dict entries) =
      Except.ok ([UIAction.warning ("File " ++ p ++ " not found")], PVal.dict entries) := by
  simp only [handleSelectEvent, htype, if_pos rfl, if_true,
    selectPath_ok_false entries tEntries p (ign.getD []) htarget hpath hpass,
    pvalLookup, htarget, hpath, hexists, Bool.false_eq_true, if_false]

theorem stale_selection_warns_witness :
    handleSelectEvent [] scope1 (some [".png"]) true (PVal.dict entries9) =
      Except.ok ([UIAction.warning ("File " ++ "gone.txt" ++ " not found")],
        PVal.dict entries9) :=
  stale_selection_warns [] scope1 (some [".png"]) true entries9
    [("path", PVal.str "gone.txt")] "gone.txt" rfl rfl rfl (by decide) rfl

/-- C10 counterexample: with an empty (defaulted) ignore list the generator
inside any() never runs, so for a dict SELECT_FILE event lacking target the
KeyError arises at the subsequent target access, not while evaluating the
ignore filter as the claim locates it. -/
theorem missing_target_site_not_filter :
    handleSelectEvent [] scope1 none true (PVal.dict entries10) =
      Except.error { site := KSite.targetAccess, key := "target" } ∧
    KSite.targetAccess ≠ KSite.ignoreFilter :=
  ⟨rfl, by decide⟩

/-- C10 (amended): a dict SELECT_FILE event lacking target (or whose dict
target lacks path) makes the orchestrator raise a KeyError instead of
returning the event - while evaluating the ignore filter when the ignore
list is non-empty, otherwise at the subsequent target/path access; a
non-dict event still passes through unexamined. -/
theorem missing_target_raises (store : List Row) (scope : Scope)
    (ign : Option (List String)) (sp : Bool) (entries : List (String × PVal))
    (htype : entries.lookup "type" = some (PVal.str "SELECT_FILE"))
    (hmiss : lacksTargetPath entries = true) :
    (resultErrSite (handleSelectEvent store scope ign sp (PVal.dict entries))).isSome = true ∧
    (ign.getD [] ≠ [] →
      resultErrSite (handleSelectEvent store scope ign sp (PVal.dict entries)) =
        some KSite.ignoreFilter) ∧
    handleSelectEvent store scope ign sp PVal.other = Except.ok ([], PVal.other) := by
  refine ?_
  cases ht : entries.lookup "target" with
  | none =>
    cases hig : ign.getD [] with
    | nil =>
      have hrun : handleSelectEvent store scope ign sp (PVal.dict entries) =
          Except.error ⟨KSite.targetAccess, "target"⟩ := by
        simp only [handleSelectEvent, htype, if_pos rfl, if_true, hig,
          selectPathEndswithAny, pvalLookup, ht]
      rw [hrun]
      exact ⟨rfl, fun hne => absurd rfl hne, rfl⟩
    | cons ft rest =>
      have hrun : handleSelectEvent store scope ign sp (PVal.dict entries) =
          Except.error ⟨KSite.ignoreFilter, "target"⟩ := by
        simp only [handleSelectEvent, htype, if_pos rfl, if_true, hig,
          selectPathEndswithAny, pvalLookup, ht]
      rw [hrun]
      exact ⟨rfl, fun _ => rfl, rfl⟩
  | some v =>
    cases v with
    | str s => simp [lacksTargetPath, ht] at hmiss
    | other => simp [lacksTargetPath, ht] at hmiss
    | dict t =>
      have hpn : t.lookup "path" = none := by
        simp only [lacksTargetPath, ht, Option.isNone_iff_eq_none] at hmiss
        exact hmiss
      cases hig : ign.getD [] with
      | nil =>
        have hrun : handleSelectEvent store scope ign sp (PVal.dict entries) =
            Except.error ⟨KSite.existsArg, "path"⟩ := by
          simp only [handleSelectEvent, htype, if_pos rfl, if_true, hig,
            selectPathEndswithAny, pvalLookup, ht, hpn]
        rw [hrun]
        exact ⟨rfl, fun hne => absurd rfl hne, rfl⟩
      | cons ft rest =>
        have hrun : handleSelectEvent store scope ign sp (PVal.dict entries) =
            Except.error ⟨KSite.ignoreFilter, "path"⟩ := by
          simp only [handleSelectEvent, htype, if_pos rfl, if_true, hig,
            selectPathEndswithAny, pvalLookup, ht, hpn]
        rw [hrun]
        exact ⟨rfl, fun _ => rfl, rfl⟩

theorem missing_target_raises_witness :
    lacksTargetPath entries10 = true ∧
    ((resultErrSite (handleSelectEvent [] scope1 (some [".png"]) true
        (PVal.dict entries10))).isSome = true ∧
      ((some [".png"] : Option (List String)).getD [] ≠ [] →
        resultErrSite (handleSelectEvent [] scope1 (some [".png"]) true
          (PVal.dict entries10)) = some KSite.ignoreFilter) ∧
      handleSelectEvent [] scope1 (some [".png"]) true PVal.other =
        Except.ok ([], PVal.other)) :=
  ⟨rfl, missing_target_raises [] scope1 (some [".png"]) true entries10 rfl rfl⟩

end StorageBrowser
